import Mathlib

/-!
Shallow embedding of the ownserver reverse-tunnel core.

The server-side registry (`Store`, from src/ownserver_server/src/store.rs) and the
proxy-server client registry (`Connections`, from src/proxy_server/src/connected_clients.rs)
are translated from the source. Components of the repository that are not under src/
(the `RemoteStream`, `Client` and `PortAllocator` types, the ControlPacket codec and the
per-stream byte pumps) are modelled from the specification; each such definition carries a
doc comment starting with "Modelled from the spec:".

Machine integers are modelled as `Nat`; 128-bit ids and 16-bit ports keep their bounds
explicit where an operation depends on them. Stateful Rust methods become explicit
state-passing functions returning `result × state`.
-/

/-- Opaque 128-bit stream identifier (ownserver_lib), modelled as a natural number. -/
abbrev StreamId := Nat

/-- Opaque 128-bit client identifier (ownserver_lib), modelled as a natural number. -/
abbrev ClientId := Nat

/-- A socket address, used only as a lookup key, modelled as a natural number. -/
abbrev SocketAddr := Nat

/-- Association-list model of a hash map: lookup returns the first binding of a key. -/
def mapLookup {α β : Type} [DecidableEq α] (m : List (α × β)) (k : α) : Option β :=
  match m with
  | [] => none
  | p :: rest => if p.1 = k then some p.2 else mapLookup rest k

/-- Insert a binding, replacing any existing binding of the same key (HashMap/DashMap insert). -/
def mapInsert {α β : Type} [DecidableEq α] (m : List (α × β)) (k : α) (v : β) : List (α × β) :=
  (k, v) :: m.filter (fun p => decide (p.1 ≠ k))

/-- Update the value bound to a key in place, leaving the map unchanged when the key is absent
(the `get_mut` + mutate pattern). -/
def mapModify {α β : Type} [DecidableEq α] (m : List (α × β)) (k : α) (f : β → β) : List (α × β) :=
  match m with
  | [] => []
  | p :: rest => if p.1 = k then (p.1, f p.2) :: rest else p :: mapModify rest k f

/-- Remove every binding of a key (HashMap/DashMap remove). -/
def mapRemove {α β : Type} [DecidableEq α] (m : List (α × β)) (k : α) : List (α × β) :=
  m.filter (fun p => decide (p.1 ≠ k))

/-- Keep only the bindings whose value satisfies the predicate (HashMap retain). -/
def mapRetain {α β : Type} (m : List (α × β)) (keep : β → Bool) : List (α × β) :=
  m.filter (fun p => keep p.2)

/-- Payload kind from ownserver_lib (crate not under src/); src/ownserver/src/main.rs uses
exactly the variants `UDP` and `Other`. -/
inductive Payload : Type
  | UDP : Payload
  | Other : Payload
deriving DecidableEq

/-- ControlPacket from ownserver_lib (crate not under src/), variants as listed in the spec
(section 3); byte strings are lists of byte values. -/
inductive ControlPacket : Type
  | Init (stream_id : StreamId)
  | Data (stream_id : StreamId) (bytes : List Nat)
  | End (stream_id : StreamId)
  | Refused (stream_id : StreamId)
  | Ping
  | Pong
  | Hello (token : List Nat) (payload_kind : Payload)
  | ServerHello (client_id : ClientId) (assigned_port : Nat)
deriving DecidableEq

/-- Modelled from the spec: StreamMessage (src/ownserver_server/src/remote/stream.rs is not
under src/) — an inbound-to-socket byte buffer or a close signal (section 4.3). -/
inductive StreamMessage : Type
  | Bytes (bytes : List Nat)
  | Close
deriving DecidableEq

/-- Error type used by the Store operations; variants per the source (ClientNotAvailable,
StreamNotAvailable in store.rs) and the spec's error kinds (section 4.3 and section 7). -/
inductive ClientStreamError : Type
  | ClientNotAvailable (id : ClientId)
  | ClientDisabled (id : ClientId)
  | StreamNotAvailable (id : StreamId)
  | StreamDisabled (id : StreamId)
deriving DecidableEq

/-- Modelled from the spec: RemoteStream (src/ownserver_server/src/remote/stream.rs is not
under src/) — one external connection: its id, owning client, inbound channel (modelled as a
queue) and terminal `disabled` flag (section 3, server-side entities). -/
structure RemoteStream : Type where
  stream_id : StreamId
  client_id : ClientId
  queue : List StreamMessage
  disabled : Bool
deriving DecidableEq

/-- Mark the stream disabled (terminal; marks only, per spec section 4.3). -/
def RemoteStream.disable (r : RemoteStream) : RemoteStream :=
  { r with disabled := true }

/-- Modelled from the spec: sending to a disabled stream is refused, otherwise the message is
enqueued on the stream's inbound channel (section 4.3, section 3 invariant 4). -/
def RemoteStream.send_to_remote (r : RemoteStream) (stream_id : StreamId)
    (message : StreamMessage) : Except ClientStreamError Unit × RemoteStream :=
  if r.disabled then (Except.error (ClientStreamError.StreamDisabled stream_id), r)
  else (Except.ok (), { r with queue := r.queue ++ [message] })

/-- Modelled from the spec: Client (the server crate's Client type is not under src/) — one
connected tunnel client: id, public port, outbound packet channel (modelled as a queue) and
terminal `disabled` flag (section 3, server-side entities). -/
structure Client : Type where
  client_id : ClientId
  remote_port : Nat
  queue : List ControlPacket
  disabled : Bool
deriving DecidableEq

/-- Mark the client disabled (terminal). -/
def Client.disable (c : Client) : Client :=
  { c with disabled := true }

/-- Modelled from the spec: enqueue on the client's outbound control channel; a disabled
client accepts no further packets (section 4.4, section 3 invariant 4). -/
def Client.send_to_client (c : Client) (packet : ControlPacket) :
    Except ClientStreamError Unit × Client :=
  if c.disabled then (Except.error (ClientStreamError.ClientDisabled c.client_id), c)
  else (Except.ok (), { c with queue := c.queue ++ [packet] })

/-- Errors of the port allocator (spec section 4.2). -/
inductive PortAllocatorError : Type
  | Exhausted
  | NotAllocated
deriving DecidableEq

/-- Modelled from the spec: the port allocator (port_allocator.rs is not under src/). It owns
the half-open range [lo, hi); `free` is the free set, initially the whole range
(section 4.2). -/
structure PortAllocator : Type where
  lo : Nat
  hi : Nat
  free : List Nat
deriving DecidableEq

/-- Fresh allocator over [lo, hi). -/
def PortAllocator.new (lo hi : Nat) : PortAllocator :=
  ⟨lo, hi, List.range' lo (hi - lo)⟩

/-- Modelled from the spec: draw a pseudo-random candidate from the free set, deterministic
given the rng draw, and remove it from the free set; Exhausted when the free set is empty
(section 4.2). -/
def PortAllocator.allocate_port (a : PortAllocator) (rng : Nat) :
    Except PortAllocatorError Nat × PortAllocator :=
  if h : a.free.length = 0 then (Except.error PortAllocatorError.Exhausted, a)
  else
    let chosen := a.free.get ⟨rng % a.free.length, Nat.mod_lt rng (Nat.pos_of_ne_zero h)⟩
    (Except.ok chosen, { a with free := a.free.erase chosen })

/-- A port is currently allocated when it lies in the range and is not in the free set. -/
def PortAllocator.isAllocated (a : PortAllocator) (port : Nat) : Prop :=
  a.lo ≤ port ∧ port < a.hi ∧ port ∉ a.free

instance (a : PortAllocator) (port : Nat) : Decidable (a.isAllocated port) := by
  unfold PortAllocator.isAllocated
  infer_instance

/-- Modelled from the spec: return a currently allocated port to the free set; NotAllocated
otherwise, so a second release of the same port is an error (section 4.2). -/
def PortAllocator.release_port (a : PortAllocator) (port : Nat) :
    Except PortAllocatorError Unit × PortAllocator :=
  if a.isAllocated port then (Except.ok (), { a with free := port :: a.free })
  else (Except.error PortAllocatorError.NotAllocated, a)

/-- The server-side Store (src/ownserver_server/src/store.rs): the four indexes and the port
allocator. -/
structure Store : Type where
  streams : List (StreamId × RemoteStream)
  clients : List (ClientId × Client)
  addrs_map : List (SocketAddr × StreamId)
  port_map : List (Nat × ClientId)
  alloc : PortAllocator
deriving DecidableEq

/-- Store::new — empty indexes over the given port range. -/
def Store.new (lo hi : Nat) : Store :=
  ⟨[], [], [], [], PortAllocator.new lo hi⟩

/-- Store::send_to_client — look the client up and enqueue on its outbound channel;
ClientNotAvailable when the id is unknown. -/
def Store.send_to_client (s : Store) (client_id : ClientId) (packet : ControlPacket) :
    Except ClientStreamError Unit × Store :=
  match mapLookup s.clients client_id with
  | some client =>
      let r := client.send_to_client packet
      (r.1, { s with clients := mapModify s.clients client_id (fun _ => r.2) })
  | none => (Except.error (ClientStreamError.ClientNotAvailable client_id), s)

/-- Store::send_to_remote — look the stream up and enqueue on its inbound channel;
StreamNotAvailable when the id is unknown. -/
def Store.send_to_remote (s : Store) (stream_id : StreamId) (message : StreamMessage) :
    Except ClientStreamError Unit × Store :=
  match mapLookup s.streams stream_id with
  | some stream =>
      let r := stream.send_to_remote stream_id message
      (r.1, { s with streams := mapModify s.streams stream_id (fun _ => r.2) })
  | none => (Except.error (ClientStreamError.StreamNotAvailable stream_id), s)

/-- Store::disable_remote — mark the stream disabled when present; no-op otherwise. -/
def Store.disable_remote (s : Store) (stream_id : StreamId) : Store :=
  { s with streams := mapModify s.streams stream_id RemoteStream.disable }

/-- Store::disable_client — mark the client disabled when present; no-op otherwise. -/
def Store.disable_client (s : Store) (client_id : ClientId) : Store :=
  { s with clients := mapModify s.clients client_id Client.disable }

/-- Store::add_client — insert into the clients map and record the port binding. -/
def Store.add_client (s : Store) (client : Client) : Store :=
  { s with
    clients := mapInsert s.clients client.client_id client,
    port_map := mapInsert s.port_map client.remote_port client.client_id }

/-- Store::add_remote — insert into the streams map and record the peer-address binding. -/
def Store.add_remote (s : Store) (remote : RemoteStream) (peer_addr : SocketAddr) : Store :=
  { s with
    streams := mapInsert s.streams remote.stream_id remote,
    addrs_map := mapInsert s.addrs_map peer_addr remote.stream_id }

/-- Store::cleanup — drop disabled entries from the streams and clients maps. The source
retains only non-disabled values in those two maps and touches no other index. -/
def Store.cleanup (s : Store) : Store :=
  { s with
    streams := mapRetain s.streams (fun v => !v.disabled),
    clients := mapRetain s.clients (fun v => !v.disabled) }

/-- Store::find_stream_id_by_addr — consult the address index, then return the stream's own
id only when the stream is present and not disabled; the method only reads the store. -/
def Store.find_stream_id_by_addr (s : Store) (addr : SocketAddr) :
    Option StreamId × Store :=
  match mapLookup s.addrs_map addr with
  | none => (none, s)
  | some stream_id =>
      match mapLookup s.streams stream_id with
      | some stream =>
          if !stream.disabled then (some stream.stream_id, s) else (none, s)
      | none => (none, s)

/-- Store::get_stream_ids. -/
def Store.get_stream_ids (s : Store) : List StreamId :=
  s.streams.map (fun p => p.2.stream_id)

/-- Store::len_streams. -/
def Store.len_streams (s : Store) : Nat :=
  s.streams.length

/-- Store::len_clients. -/
def Store.len_clients (s : Store) : Nat :=
  s.clients.length

/-- Store::allocate_port — delegate to the allocator under its mutex. -/
def Store.allocate_port (s : Store) (rng : Nat) : Except PortAllocatorError Nat × Store :=
  let r := s.alloc.allocate_port rng
  (r.1, { s with alloc := r.2 })

/-- Store::release_port — delegate to the allocator under its mutex. -/
def Store.release_port (s : Store) (port : Nat) : Except PortAllocatorError Unit × Store :=
  let r := s.alloc.release_port port
  (r.1, { s with alloc := r.2 })

/-- One connected tunnel client as stored in the proxy-server registry
(src/proxy_server/src/connected_clients.rs). The outbound packet channel lives outside the
registry maps; `Connections::remove` additionally closes it in the source. -/
structure ConnectedClient : Type where
  id : ClientId
  host : String
deriving DecidableEq

/-- The proxy-server client registry (src/proxy_server/src/connected_clients.rs): the
`ClientId → client` map and the `host → client` map. -/
structure Connections : Type where
  clients : List (ClientId × ConnectedClient)
  hosts : List (String × ConnectedClient)
deriving DecidableEq

/-- Connections::new. -/
def Connections.new : Connections :=
  ⟨[], []⟩

/-- Connections::add — insert the client into both maps. -/
def Connections.add (c : Connections) (client : ConnectedClient) : Connections :=
  { clients := mapInsert c.clients client.id client,
    hosts := mapInsert c.hosts client.host client }

/-- Connections::remove — drop the client's host binding and its id binding (removing an
absent key changes nothing). -/
def Connections.remove (c : Connections) (client : ConnectedClient) : Connections :=
  { clients := mapRemove c.clients client.id,
    hosts := mapRemove c.hosts client.host }

/-- Connections::get. -/
def Connections.get (c : Connections) (client_id : ClientId) : Option ConnectedClient :=
  mapLookup c.clients client_id

/-- Connections::find_by_host. -/
def Connections.find_by_host (c : Connections) (host : String) : Option ConnectedClient :=
  mapLookup c.hosts host

/-- Connections::len_clients. -/
def Connections.len_clients (c : Connections) : Nat :=
  c.clients.length

/-- Connections::len_hosts. -/
def Connections.len_hosts (c : Connections) : Nat :=
  c.hosts.length

/-- Codec failure (spec section 7): any malformed control packet is a BadEncoding. -/
inductive CodecError : Type
  | BadEncoding
deriving DecidableEq

/-- Little-endian fixed-width byte encoding of a natural number: k bytes. -/
def encodeLE : Nat → Nat → List Nat
  | 0, _ => []
  | k + 1, n => n % 256 :: encodeLE k (n / 256)

/-- Little-endian byte decoding. -/
def decodeLE : List Nat → Nat
  | [] => 0
  | b :: bs => b + 256 * decodeLE bs

/-- Read exactly n bytes from the front of the input, returning them and the remainder;
fails when fewer than n bytes remain (a truncated input). -/
def readN (n : Nat) (bs : List Nat) : Option (List Nat × List Nat) :=
  if n ≤ bs.length then some (bs.take n, bs.drop n) else none

/-- Wire tag of a payload kind. -/
def Payload.tag : Payload → Nat
  | Payload.UDP => 0
  | Payload.Other => 1

/-- Modelled from the spec: the ControlPacket codec (ownserver_lib is not under src/) — a
self-describing, length-prefixed binary framing (section 3 and section 4.1): one tag byte
per variant in the spec's listing order, 16-byte ids, 4-byte lengths, 2-byte ports. -/
def ControlPacket.encode : ControlPacket → List Nat
  | ControlPacket.Init sid => 0 :: encodeLE 16 sid
  | ControlPacket.Data sid bytes => 1 :: (encodeLE 16 sid ++ (encodeLE 4 bytes.length ++ bytes))
  | ControlPacket.End sid => 2 :: encodeLE 16 sid
  | ControlPacket.Refused sid => 3 :: encodeLE 16 sid
  | ControlPacket.Ping => [4]
  | ControlPacket.Pong => [5]
  | ControlPacket.Hello token pk => 6 :: (encodeLE 4 token.length ++ (token ++ [pk.tag]))
  | ControlPacket.ServerHello cid port => 7 :: (encodeLE 16 cid ++ encodeLE 2 port)

/-- Decode a payload-kind tag byte. -/
def decodePayloadTag (b : Nat) : Option Payload :=
  if b = 0 then some Payload.UDP
  else if b = 1 then some Payload.Other
  else none

/-- Modelled from the spec: the ControlPacket decoder — total on arbitrary byte input,
failing with BadEncoding on empty, truncated, unknown-tag or trailing-garbage input
(section 4.1). -/
def ControlPacket.decode (bs : List Nat) : Except CodecError ControlPacket :=
  match bs with
  | [] => Except.error CodecError.BadEncoding
  | t :: rest =>
    if t = 0 then
      match readN 16 rest with
      | some (id16, rest2) =>
          if rest2 = [] then Except.ok (ControlPacket.Init (decodeLE id16))
          else Except.error CodecError.BadEncoding
      | none => Except.error CodecError.BadEncoding
    else if t = 1 then
      match readN 16 rest with
      | some (id16, rest2) =>
          match readN 4 rest2 with
          | some (len4, rest3) =>
              match readN (decodeLE len4) rest3 with
              | some (payload, rest4) =>
                  if rest4 = [] then Except.ok (ControlPacket.Data (decodeLE id16) payload)
                  else Except.error CodecError.BadEncoding
              | none => Except.error CodecError.BadEncoding
          | none => Except.error CodecError.BadEncoding
      | none => Except.error CodecError.BadEncoding
    else if t = 2 then
      match readN 16 rest with
      | some (id16, rest2) =>
          if rest2 = [] then Except.ok (ControlPacket.End (decodeLE id16))
          else Except.error CodecError.BadEncoding
      | none => Except.error CodecError.BadEncoding
    else if t = 3 then
      match readN 16 rest with
      | some (id16, rest2) =>
          if rest2 = [] then Except.ok (ControlPacket.Refused (decodeLE id16))
          else Except.error CodecError.BadEncoding
      | none => Except.error CodecError.BadEncoding
    else if t = 4 then
      if rest = [] then Except.ok ControlPacket.Ping else Except.error CodecError.BadEncoding
    else if t = 5 then
      if rest = [] then Except.ok ControlPacket.Pong else Except.error CodecError.BadEncoding
    else if t = 6 then
      match readN 4 rest with
      | some (len4, rest2) =>
          match readN (decodeLE len4) rest2 with
          | some (token, rest3) =>
              match rest3 with
              | [b] =>
                  match decodePayloadTag b with
                  | some pk => Except.ok (ControlPacket.Hello token pk)
                  | none => Except.error CodecError.BadEncoding
              | _ => Except.error CodecError.BadEncoding
          | none => Except.error CodecError.BadEncoding
      | none => Except.error CodecError.BadEncoding
    else if t = 7 then
      match readN 16 rest with
      | some (id16, rest2) =>
          match readN 2 rest2 with
          | some (port2, rest3) =>
              if rest3 = [] then
                Except.ok (ControlPacket.ServerHello (decodeLE id16) (decodeLE port2))
              else Except.error CodecError.BadEncoding
          | none => Except.error CodecError.BadEncoding
      | none => Except.error CodecError.BadEncoding
    else Except.error CodecError.BadEncoding

/-- Valid contents of a ControlPacket: ids fit in 128 bits, ports in 16 bits, byte payloads
are bytes and their lengths fit in the 4-byte length field (spec section 3). -/
def ControlPacket.valid : ControlPacket → Prop
  | ControlPacket.Init sid => sid < 2 ^ 128
  | ControlPacket.Data sid bytes =>
      sid < 2 ^ 128 ∧ bytes.length < 2 ^ 32 ∧ ∀ b ∈ bytes, b < 256
  | ControlPacket.End sid => sid < 2 ^ 128
  | ControlPacket.Refused sid => sid < 2 ^ 128
  | ControlPacket.Ping => True
  | ControlPacket.Pong => True
  | ControlPacket.Hello token _ => token.length < 2 ^ 32 ∧ ∀ b ∈ token, b < 256
  | ControlPacket.ServerHello cid port => cid < 2 ^ 128 ∧ port < 2 ^ 16

instance : ∀ X : ControlPacket, Decidable X.valid := by
  intro X
  cases X <;> unfold ControlPacket.valid <;> infer_instance

/-- Modelled from the spec: the public-side reader task (the pump code is not under src/;
only its integration tests are) reads one application write B in chunks of at most
chunkSize bytes, at least one byte per chunk, in order (section 3 framing, section 4.5). -/
def chunkBytes (chunkSize : Nat) : List Nat → List (List Nat)
  | [] => []
  | b :: bs => (b :: bs.take (chunkSize - 1)) :: chunkBytes chunkSize (bs.drop (chunkSize - 1))
termination_by l => l.length
decreasing_by simp [List.length_drop]; omega

/-- Modelled from the spec: forwarding one write B on stream `stream_id` emits one Data
packet per chunk, in order (section 4.5 reader task). -/
def forward_public_to_local (stream_id : StreamId) (chunkSize : Nat) (B : List Nat) :
    List ControlPacket :=
  (chunkBytes chunkSize B).map (fun c => ControlPacket.Data stream_id c)

/-- Modelled from the spec: the receiving side writes the payloads of the Data packets of
its stream, in arrival order, ignoring packets of other streams; the bytes delivered are
their concatenation (section 4.5 writer task, section 3 invariant 5). -/
def delivered_bytes (stream_id : StreamId) (packets : List ControlPacket) : List Nat :=
  (packets.filterMap (fun p =>
    match p with
    | ControlPacket.Data sid bytes => if sid = stream_id then some bytes else none
    | _ => none)).flatten

/-- The ASCII bytes of "foobarbaz", the payload of end-to-end scenario B (spec section 8). -/
def foobarbaz_bytes : List Nat :=
  [102, 111, 111, 98, 97, 114, 98, 97, 122]

instance {ε α : Type} [DecidableEq ε] [DecidableEq α] : DecidableEq (Except ε α) := fun x y =>
  match x, y with
  | Except.ok v, Except.ok w =>
      if h : v = w then isTrue (by rw [h]) else isFalse (fun hc => h (Except.ok.inj hc))
  | Except.ok _, Except.error _ => isFalse (fun hc => Except.noConfusion hc)
  | Except.error _, Except.ok _ => isFalse (fun hc => Except.noConfusion hc)
  | Except.error v, Except.error w =>
      if h : v = w then isTrue (by rw [h]) else isFalse (fun hc => h (Except.error.inj hc))

/-- Run a sequence of allocations against an allocator, threading the state and collecting
each result in order (one generation, no intervening release). -/
def allocRun : PortAllocator → List Nat → List (Except PortAllocatorError Nat) × PortAllocator
  | a, [] => ([], a)
  | a, rng :: rngs =>
      ((a.allocate_port rng).1 :: (allocRun (a.allocate_port rng).2 rngs).1,
        (allocRun (a.allocate_port rng).2 rngs).2)

/-- A successful lookup exhibits a member of the association list. -/
theorem mapLookup_mem {α β : Type} [DecidableEq α] (m : List (α × β)) (k : α) (v : β)
    (h : mapLookup m k = some v) : (k, v) ∈ m := by
  induction m with
  | nil => simp [mapLookup] at h
  | cons p rest ih =>
      rw [mapLookup] at h
      by_cases hp : p.1 = k
      · rw [if_pos hp] at h
        cases h
        subst hp
        exact List.mem_cons_self p rest
      · rw [if_neg hp] at h
        exact List.mem_cons_of_mem p (ih h)

/-- Lookup in a retained map only ever returns values the predicate keeps. -/
theorem mapLookup_mapRetain_some {α β : Type} [DecidableEq α] (m : List (α × β))
    (keep : β → Bool) (k : α) (v : β) (h : mapLookup (mapRetain m keep) k = some v) :
    keep v = true := by
  induction m with
  | nil => simp [mapRetain, mapLookup] at h
  | cons p rest ih =>
      rw [mapRetain, List.filter_cons] at h
      by_cases hk : keep p.2
      · rw [if_pos hk] at h
        rw [mapLookup] at h
        by_cases hp : p.1 = k
        · rw [if_pos hp] at h
          cases h
          exact hk
        · rw [if_neg hp] at h
          exact ih h
      · rw [if_neg hk] at h
        exact ih h

/-- Retaining does not invent bindings: a lookup that succeeds after retain succeeded
before, provided the map's keys are distinct. -/
theorem mapLookup_mapRetain_of_some {α β : Type} [DecidableEq α] (m : List (α × β))
    (keep : β → Bool) (k : α) (v : β) (h : mapLookup (mapRetain m keep) k = some v)
    (hnd : (m.map Prod.fst).Nodup) : mapLookup m k = some v := by
  induction m with
  | nil => simp [mapRetain, mapLookup] at h
  | cons p rest ih =>
      rw [List.map_cons, List.nodup_cons] at hnd
      rw [mapRetain, List.filter_cons] at h
      by_cases hk : keep p.2
      · rw [if_pos hk] at h
        rw [mapLookup] at h ⊢
        by_cases hp : p.1 = k
        · rwa [if_pos hp] at h ⊢
        · rw [if_neg hp] at h ⊢
          exact ih h hnd.2
      · rw [if_neg hk] at h
        rw [mapLookup]
        by_cases hp : p.1 = k
        · exfalso
          subst hp
          have hmem := mapLookup_mem (mapRetain rest keep) p.1 v h
          have hmem2 : p.1 ∈ rest.map Prod.fst := by
            have hm := List.mem_of_mem_filter hmem
            have hm2 := List.mem_map_of_mem Prod.fst hm
            simpa using hm2
          exact hnd.1 hmem2
        · rw [if_neg hp]
          exact ih h hnd.2

/-- Inserting a binding makes it the one the key looks up to. -/
theorem mapLookup_mapInsert_self {α β : Type} [DecidableEq α] (m : List (α × β)) (k : α)
    (v : β) : mapLookup (mapInsert m k v) k = some v := by
  simp [mapInsert, mapLookup]

/-- Rewriting the first binding of a key with its own current value changes nothing. -/
theorem mapModify_lookup_self {α β : Type} [DecidableEq α] (m : List (α × β)) (k : α) (v : β)
    (h : mapLookup m k = some v) : mapModify m k (fun _ => v) = m := by
  induction m with
  | nil => rfl
  | cons p rest ih =>
      rw [mapLookup] at h
      rw [mapModify]
      by_cases hp : p.1 = k
      · rw [if_pos hp] at h
        rw [if_pos hp]
        cases h
        rfl
      · rw [if_neg hp] at h
        rw [if_neg hp, ih h]

/-- Lookup after an in-place modification of the same key. -/
theorem mapLookup_mapModify_self {α β : Type} [DecidableEq α] (m : List (α × β)) (k : α)
    (f : β → β) : mapLookup (mapModify m k f) k = (mapLookup m k).map f := by
  induction m with
  | nil => rfl
  | cons p rest ih =>
      rw [mapModify]
      by_cases hp : p.1 = k
      · rw [if_pos hp]
        rw [mapLookup, if_pos hp, mapLookup, if_pos hp]
        simp
      · rw [if_neg hp]
        rw [mapLookup, if_neg hp, mapLookup, if_neg hp, ih]

/-- In-place modification by an idempotent function is idempotent. -/
theorem mapModify_mapModify {α β : Type} [DecidableEq α] (m : List (α × β)) (k : α)
    (f : β → β) (hf : ∀ b, f (f b) = f b) :
    mapModify (mapModify m k f) k f = mapModify m k f := by
  induction m with
  | nil => rfl
  | cons p rest ih =>
      rw [mapModify]
      by_cases hp : p.1 = k
      · rw [if_pos hp]
        rw [mapModify, if_pos hp, hf]
      · rw [if_neg hp]
        rw [mapModify, if_neg hp, ih]

/-- Removing a key twice is the same as removing it once. -/
theorem mapRemove_mapRemove {α β : Type} [DecidableEq α] (m : List (α × β)) (k : α) :
    mapRemove (mapRemove m k) k = mapRemove m k := by
  induction m with
  | nil => rfl
  | cons p rest ih =>
      simp only [mapRemove] at ih ⊢
      rw [List.filter_cons]
      by_cases hp : p.1 = k
      · rw [if_neg (by simp [hp])]
        exact ih
      · rw [if_pos (by simp [hp]), List.filter_cons, if_pos (by simp [hp]), ih]

/-- Chunking concatenates back to the original byte sequence (fuel-indexed form). -/
theorem chunkBytes_flatten_fuel (c : Nat) :
    ∀ (n : Nat) (B : List Nat), B.length ≤ n → (chunkBytes c B).flatten = B := by
  intro n
  induction n with
  | zero =>
      intro B hB
      have hB0 : B = [] := List.length_eq_zero.mp (Nat.le_zero.mp hB)
      subst hB0
      simp [chunkBytes]
  | succ n ih =>
      intro B hB
      cases B with
      | nil => simp [chunkBytes]
      | cons b bs =>
          rw [chunkBytes, List.flatten_cons]
          rw [ih (bs.drop (c - 1)) (by simp [List.length_drop]; simp at hB; omega)]
          simp [List.cons_append, List.take_append_drop]

/-- Chunking concatenates back to the original byte sequence. -/
theorem chunkBytes_flatten (c : Nat) (B : List Nat) : (chunkBytes c B).flatten = B :=
  chunkBytes_flatten_fuel c B.length B (Nat.le_refl _)

/-- Delivering a list of Data packets all carrying the same stream id concatenates their
payloads in order. -/
theorem delivered_bytes_map_data (stream_id : StreamId) (chunks : List (List Nat)) :
    delivered_bytes stream_id (chunks.map (fun chunk => ControlPacket.Data stream_id chunk)) =
      chunks.flatten := by
  induction chunks with
  | nil => rfl
  | cons chunk rest ih =>
      rw [delivered_bytes] at ih ⊢
      rw [List.map_cons, List.filterMap_cons]
      simp only [if_pos]
      rw [List.flatten_cons, ih, List.flatten_cons]

/-- C1: for every byte sequence B written to the public side of an open stream, the
concatenated bytes delivered on the corresponding local side equal B, in the same order;
in particular a single write of "foobarbaz" sent as Data(S, "foobarbaz") is read back
exactly as "foobarbaz" by the peer of stream S. -/
theorem C1_forwarded_bytes_preserved :
    (∀ (stream_id : StreamId) (chunkSize : Nat) (B : List Nat),
      delivered_bytes stream_id (forward_public_to_local stream_id chunkSize B) = B) ∧
    delivered_bytes 1 [ControlPacket.Data 1 foobarbaz_bytes] = foobarbaz_bytes := by
  constructor
  · intro sid c B
    rw [forward_public_to_local, delivered_bytes_map_data]
    exact chunkBytes_flatten c B
  · rfl

/-- The fixed-width little-endian encoding has exactly the requested width. -/
theorem encodeLE_length (k : Nat) : ∀ n : Nat, (encodeLE k n).length = k := by
  induction k with
  | zero => intro n; rfl
  | succ k ih => intro n; rw [encodeLE, List.length_cons, ih]

/-- Decoding the fixed-width encoding recovers the number modulo the width's modulus. -/
theorem decodeLE_encodeLE (k : Nat) : ∀ n : Nat, decodeLE (encodeLE k n) = n % 256 ^ k := by
  induction k with
  | zero => intro n; simp [encodeLE, decodeLE, Nat.mod_one]
  | succ k ih =>
      intro n
      rw [encodeLE, decodeLE, ih, pow_succ', Nat.mod_mul]

/-- Decoding the fixed-width encoding of a number that fits recovers it exactly. -/
theorem decodeLE_encodeLE_of_lt (k n : Nat) (h : n < 256 ^ k) :
    decodeLE (encodeLE k n) = n := by
  rw [decodeLE_encodeLE, Nat.mod_eq_of_lt h]

/-- Reading exactly the length of a prefix splits an appended input at that prefix. -/
theorem readN_append (n : Nat) (xs ys : List Nat) (h : xs.length = n) :
    readN n (xs ++ ys) = some (xs, ys) := by
  subst h
  rw [readN, if_pos (by simp)]
  rw [List.take_left, List.drop_left]

/-- Reading a whole input consumes it. -/
theorem readN_exact (bs : List Nat) : readN bs.length bs = some (bs, []) := by
  rw [readN, if_pos (Nat.le_refl _)]
  simp

/-- Reading more bytes than remain fails: a truncated input is detected. -/
theorem readN_short (n : Nat) (bs : List Nat) (h : bs.length < n) : readN n bs = none := by
  rw [readN, if_neg (by omega)]

/-- Convenience form: reading a fixed-width field off the front of an appended input. -/
theorem readN_encodeLE (k n : Nat) (ys : List Nat) :
    readN k (encodeLE k n ++ ys) = some (encodeLE k n, ys) :=
  readN_append k (encodeLE k n) ys (encodeLE_length k n)

/-- Round-trip: decoding an encoded packet with valid contents yields the packet back. -/
theorem decode_encode (X : ControlPacket) (h : X.valid) :
    ControlPacket.decode (ControlPacket.encode X) = Except.ok X := by
  cases X with
  | Init sid =>
      rw [ControlPacket.valid] at h
      rw [show (2:Nat) ^ 128 = 256 ^ 16 by norm_num] at h
      have h16 : readN 16 (encodeLE 16 sid) = some (encodeLE 16 sid, []) := by
        have he := readN_exact (encodeLE 16 sid)
        rwa [encodeLE_length] at he
      simp [ControlPacket.encode, ControlPacket.decode, h16,
        decodeLE_encodeLE_of_lt 16 sid h]
  | Data sid bytes =>
      rw [ControlPacket.valid] at h
      obtain ⟨hsid, hlen, _⟩ := h
      rw [show (2:Nat) ^ 128 = 256 ^ 16 by norm_num] at hsid
      rw [show (2:Nat) ^ 32 = 256 ^ 4 by norm_num] at hlen
      have hb : readN bytes.length bytes = some (bytes, []) := readN_exact bytes
      simp [ControlPacket.encode, ControlPacket.decode, readN_encodeLE, hb,
        decodeLE_encodeLE_of_lt 4 bytes.length hlen,
        decodeLE_encodeLE_of_lt 16 sid hsid]
  | End sid =>
      rw [ControlPacket.valid] at h
      rw [show (2:Nat) ^ 128 = 256 ^ 16 by norm_num] at h
      have h16 : readN 16 (encodeLE 16 sid) = some (encodeLE 16 sid, []) := by
        have he := readN_exact (encodeLE 16 sid)
        rwa [encodeLE_length] at he
      simp [ControlPacket.encode, ControlPacket.decode, h16,
        decodeLE_encodeLE_of_lt 16 sid h]
  | Refused sid =>
      rw [ControlPacket.valid] at h
      rw [show (2:Nat) ^ 128 = 256 ^ 16 by norm_num] at h
      have h16 : readN 16 (encodeLE 16 sid) = some (encodeLE 16 sid, []) := by
        have he := readN_exact (encodeLE 16 sid)
        rwa [encodeLE_length] at he
      simp [ControlPacket.encode, ControlPacket.decode, h16,
        decodeLE_encodeLE_of_lt 16 sid h]
  | Ping => rfl
  | Pong => rfl
  | Hello token pk =>
      rw [ControlPacket.valid] at h
      obtain ⟨hlen, _⟩ := h
      rw [show (2:Nat) ^ 32 = 256 ^ 4 by norm_num] at hlen
      cases pk with
      | UDP =>
          have ht : readN token.length (token ++ [0]) = some (token, [0]) :=
            readN_append token.length token [0] rfl
          simp [ControlPacket.encode, ControlPacket.decode, readN_encodeLE, Payload.tag,
            decodePayloadTag, ht, decodeLE_encodeLE_of_lt 4 token.length hlen]
      | Other =>
          have ht : readN token.length (token ++ [1]) = some (token, [1]) :=
            readN_append token.length token [1] rfl
          simp [ControlPacket.encode, ControlPacket.decode, readN_encodeLE, Payload.tag,
            decodePayloadTag, ht, decodeLE_encodeLE_of_lt 4 token.length hlen]
  | ServerHello cid port =>
      rw [ControlPacket.valid] at h
      obtain ⟨hcid, hport⟩ := h
      rw [show (2:Nat) ^ 128 = 256 ^ 16 by norm_num] at hcid
      rw [show (2:Nat) ^ 16 = 256 ^ 2 by norm_num] at hport
      have hp : readN 2 (encodeLE 2 port) = some (encodeLE 2 port, []) := by
        have he := readN_exact (encodeLE 2 port)
        rwa [encodeLE_length] at he
      simp [ControlPacket.encode, ControlPacket.decode, readN_encodeLE, hp,
        decodeLE_encodeLE_of_lt 16 cid hcid,
        decodeLE_encodeLE_of_lt 2 port hport]

/-- Truncation: every strict prefix of the encoding of a valid packet is rejected with
BadEncoding. -/
theorem decode_truncated (X : ControlPacket) (h : X.valid) (k : Nat)
    (hk : k < (ControlPacket.encode X).length) :
    ControlPacket.decode ((ControlPacket.encode X).take k) =
      Except.error CodecError.BadEncoding := by
  cases X with
  | Init sid =>
      rw [ControlPacket.encode] at hk ⊢
      rw [List.length_cons, encodeLE_length] at hk
      cases k with
      | zero => rfl
      | succ j =>
          rw [List.take_succ_cons]
          have hr : readN 16 ((encodeLE 16 sid).take j) = none :=
            readN_short _ _ (lt_of_le_of_lt (List.length_take_le _ _) (by omega))
          simp [ControlPacket.decode, hr]
  | Data sid bytes =>
      rw [ControlPacket.valid] at h
      obtain ⟨hsid, hlen, _⟩ := h
      rw [show (2:Nat) ^ 32 = 256 ^ 4 by norm_num] at hlen
      rw [ControlPacket.encode] at hk ⊢
      rw [List.length_cons, List.length_append, List.length_append, encodeLE_length,
        encodeLE_length] at hk
      cases k with
      | zero => rfl
      | succ j =>
          rw [List.take_succ_cons]
          by_cases h16 : j < 16
          · have hr : readN 16
                ((encodeLE 16 sid ++ (encodeLE 4 bytes.length ++ bytes)).take j) = none :=
              readN_short _ _ (lt_of_le_of_lt (List.length_take_le _ _) h16)
            simp [ControlPacket.decode, hr]
          · have hsplit : (encodeLE 16 sid ++ (encodeLE 4 bytes.length ++ bytes)).take j
                = encodeLE 16 sid ++ ((encodeLE 4 bytes.length ++ bytes).take (j - 16)) := by
              rw [List.take_append_eq_append_take, encodeLE_length,
                List.take_of_length_le (by rw [encodeLE_length]; omega)]
            rw [hsplit]
            by_cases h4 : j - 16 < 4
            · have hr : readN 4 ((encodeLE 4 bytes.length ++ bytes).take (j - 16)) = none :=
                readN_short _ _ (lt_of_le_of_lt (List.length_take_le _ _) h4)
              simp [ControlPacket.decode, readN_encodeLE, hr]
            · have hsplit2 : (encodeLE 4 bytes.length ++ bytes).take (j - 16)
                  = encodeLE 4 bytes.length ++ (bytes.take (j - 16 - 4)) := by
                rw [List.take_append_eq_append_take, encodeLE_length,
                  List.take_of_length_le (by rw [encodeLE_length]; omega)]
              rw [hsplit2]
              have hr : readN bytes.length (bytes.take (j - 16 - 4)) = none :=
                readN_short _ _
                  (lt_of_le_of_lt (List.length_take_le _ _) (by omega))
              simp [ControlPacket.decode, readN_encodeLE,
                decodeLE_encodeLE_of_lt 4 bytes.length hlen, hr]
  | End sid =>
      rw [ControlPacket.encode] at hk ⊢
      rw [List.length_cons, encodeLE_length] at hk
      cases k with
      | zero => rfl
      | succ j =>
          rw [List.take_succ_cons]
          have hr : readN 16 ((encodeLE 16 sid).take j) = none :=
            readN_short _ _ (lt_of_le_of_lt (List.length_take_le _ _) (by omega))
          simp [ControlPacket.decode, hr]
  | Refused sid =>
      rw [ControlPacket.encode] at hk ⊢
      rw [List.length_cons, encodeLE_length] at hk
      cases k with
      | zero => rfl
      | succ j =>
          rw [List.take_succ_cons]
          have hr : readN 16 ((encodeLE 16 sid).take j) = none :=
            readN_short _ _ (lt_of_le_of_lt (List.length_take_le _ _) (by omega))
          simp [ControlPacket.decode, hr]
  | Ping =>
      rw [ControlPacket.encode] at hk ⊢
      rw [List.length_cons, List.length_nil] at hk
      cases k with
      | zero => rfl
      | succ j => omega
  | Pong =>
      rw [ControlPacket.encode] at hk ⊢
      rw [List.length_cons, List.length_nil] at hk
      cases k with
      | zero => rfl
      | succ j => omega
  | Hello token pk =>
      rw [ControlPacket.valid] at h
      obtain ⟨hlen, _⟩ := h
      rw [show (2:Nat) ^ 32 = 256 ^ 4 by norm_num] at hlen
      rw [ControlPacket.encode] at hk ⊢
      rw [List.length_cons, List.length_append, List.length_append, encodeLE_length,
        List.length_cons] at hk
      cases k with
      | zero => rfl
      | succ j =>
          rw [List.take_succ_cons]
          by_cases h4 : j < 4
          · have hr : readN 4
                ((encodeLE 4 token.length ++ (token ++ [pk.tag])).take j) = none :=
              readN_short _ _ (lt_of_le_of_lt (List.length_take_le _ _) h4)
            simp [ControlPacket.decode, hr]
          · have hsplit : (encodeLE 4 token.length ++ (token ++ [pk.tag])).take j
                = encodeLE 4 token.length ++ ((token ++ [pk.tag]).take (j - 4)) := by
              rw [List.take_append_eq_append_take, encodeLE_length,
                List.take_of_length_le (by rw [encodeLE_length]; omega)]
            rw [hsplit]
            by_cases hn : j - 4 < token.length
            · have hr : readN token.length ((token ++ [pk.tag]).take (j - 4)) = none :=
                readN_short _ _ (lt_of_le_of_lt (List.length_take_le _ _) hn)
              simp [ControlPacket.decode, readN_encodeLE,
                decodeLE_encodeLE_of_lt 4 token.length hlen, hr]
            · have hje : j - 4 = token.length := by
                simp at hk
                omega
              have htake : (token ++ [pk.tag]).take (j - 4) = token := by
                rw [hje, List.take_left]
              rw [htake]
              have hr : readN token.length token = some (token, []) := readN_exact token
              simp [ControlPacket.decode, readN_encodeLE,
                decodeLE_encodeLE_of_lt 4 token.length hlen, hr]
  | ServerHello cid port =>
      rw [ControlPacket.encode] at hk ⊢
      rw [List.length_cons, List.length_append, encodeLE_length, encodeLE_length] at hk
      cases k with
      | zero => rfl
      | succ j =>
          rw [List.take_succ_cons]
          by_cases h16 : j < 16
          · have hr : readN 16 ((encodeLE 16 cid ++ encodeLE 2 port).take j) = none :=
              readN_short _ _ (lt_of_le_of_lt (List.length_take_le _ _) h16)
            simp [ControlPacket.decode, hr]
          · have hsplit : (encodeLE 16 cid ++ encodeLE 2 port).take j
                = encodeLE 16 cid ++ ((encodeLE 2 port).take (j - 16)) := by
              rw [List.take_append_eq_append_take, encodeLE_length,
                List.take_of_length_le (by rw [encodeLE_length]; omega)]
            rw [hsplit]
            have hr : readN 2 ((encodeLE 2 port).take (j - 16)) = none :=
              readN_short _ _ (lt_of_le_of_lt (List.length_take_le _ _) (by omega))
            simp [ControlPacket.decode, readN_encodeLE, hr]

/-- Unknown tags: any input whose leading tag byte is not one of the eight produced tags is
rejected with BadEncoding. -/
theorem decode_unknown_tag (t : Nat) (rest : List Nat) (ht : 8 ≤ t) :
    ControlPacket.decode (t :: rest) = Except.error CodecError.BadEncoding := by
  have h0 : ¬ t = 0 := by omega
  have h1 : ¬ t = 1 := by omega
  have h2 : ¬ t = 2 := by omega
  have h3 : ¬ t = 3 := by omega
  have h4 : ¬ t = 4 := by omega
  have h5 : ¬ t = 5 := by omega
  have h6 : ¬ t = 6 := by omega
  have h7 : ¬ t = 7 := by omega
  simp [ControlPacket.decode, h0, h1, h2, h3, h4, h5, h6, h7]

/-- Totality: decoding any byte input either succeeds or fails with BadEncoding; it can do
nothing else (the model of "decode never panics"). -/
theorem decode_total (bs : List Nat) :
    (∃ X, ControlPacket.decode bs = Except.ok X) ∨
      ControlPacket.decode bs = Except.error CodecError.BadEncoding := by
  cases hd : ControlPacket.decode bs with
  | ok X => exact Or.inl ⟨X, rfl⟩
  | error e =>
      cases e
      exact Or.inr rfl

/-- C5: the ControlPacket codec round-trips every variant bit-identically — for every
ControlPacket X with valid contents, encoding X and decoding the result yields X again —
and decode never panics on arbitrary byte input, failing with BadEncoding on truncated or
unknown-tag input. -/
theorem C5_codec_roundtrip :
    (∀ X : ControlPacket, X.valid →
      ControlPacket.decode (ControlPacket.encode X) = Except.ok X) ∧
    (∀ bs : List Nat, (∃ X, ControlPacket.decode bs = Except.ok X) ∨
      ControlPacket.decode bs = Except.error CodecError.BadEncoding) ∧
    (∀ X : ControlPacket, X.valid → ∀ k, k < (ControlPacket.encode X).length →
      ControlPacket.decode ((ControlPacket.encode X).take k) =
        Except.error CodecError.BadEncoding) ∧
    (∀ (t : Nat) (rest : List Nat), 8 ≤ t →
      ControlPacket.decode (t :: rest) = Except.error CodecError.BadEncoding) :=
  ⟨decode_encode, decode_total, fun X h k hk => decode_truncated X h k hk,
    decode_unknown_tag⟩

/-- Witness for C5 at a concrete packet and a concrete truncation. -/
theorem C5_codec_roundtrip_witness :
    ControlPacket.decode (ControlPacket.encode (ControlPacket.Data 5 foobarbaz_bytes)) =
      Except.ok (ControlPacket.Data 5 foobarbaz_bytes) ∧
    ControlPacket.decode ((ControlPacket.encode (ControlPacket.Data 5 foobarbaz_bytes)).take 3) =
      Except.error CodecError.BadEncoding ∧
    ControlPacket.decode (255 :: [0, 1, 2]) = Except.error CodecError.BadEncoding :=
  ⟨C5_codec_roundtrip.1 (ControlPacket.Data 5 foobarbaz_bytes) (by decide),
    C5_codec_roundtrip.2.2.1 (ControlPacket.Data 5 foobarbaz_bytes) (by decide) 3 (by decide),
    C5_codec_roundtrip.2.2.2 255 [0, 1, 2] (by decide)⟩

/-- A send refused by a disabled stream leaves the registry exactly as it was. -/
theorem send_to_remote_disabled_eq (s : Store) (stream_id : StreamId)
    (message : StreamMessage) (st : RemoteStream)
    (h : mapLookup s.streams stream_id = some st) (hd : st.disabled = true) :
    s.send_to_remote stream_id message =
      (Except.error (ClientStreamError.StreamDisabled stream_id), s) := by
  simp only [Store.send_to_remote, h, RemoteStream.send_to_remote, hd]
  simp [mapModify_lookup_self s.streams stream_id st h]

/-- C3: send_to_remote returns StreamNotAvailable when no stream with that id is
registered, returns StreamDisabled when the registered stream is disabled, and once a
stream is disabled no further packet is accepted for it. -/
theorem C3_send_to_remote_unknown_or_disabled (s : Store) (stream_id : StreamId)
    (message : StreamMessage) :
    (mapLookup s.streams stream_id = none →
      s.send_to_remote stream_id message =
        (Except.error (ClientStreamError.StreamNotAvailable stream_id), s)) ∧
    (∀ st, mapLookup s.streams stream_id = some st → st.disabled = true →
      s.send_to_remote stream_id message =
        (Except.error (ClientStreamError.StreamDisabled stream_id), s)) ∧
    (∀ st, mapLookup s.streams stream_id = some st →
      ((s.disable_remote stream_id).send_to_remote stream_id message).1 =
        Except.error (ClientStreamError.StreamDisabled stream_id)) := by
  refine ⟨?_, ?_, ?_⟩
  · intro h
    simp [Store.send_to_remote, h]
  · intro st h hd
    exact send_to_remote_disabled_eq s stream_id message st h hd
  · intro st h
    have hl : mapLookup (s.disable_remote stream_id).streams stream_id
        = some st.disable := by
      rw [Store.disable_remote]
      rw [mapLookup_mapModify_self, h]
      rfl
    simp [Store.send_to_remote, hl, RemoteStream.send_to_remote, RemoteStream.disable]

/-- Witness for C3 at a concrete empty registry and a concrete disabled stream. -/
theorem C3_send_to_remote_witness :
    (Store.new 4000 4010).send_to_remote 9 StreamMessage.Close =
      (Except.error (ClientStreamError.StreamNotAvailable 9), Store.new 4000 4010) ∧
    ((((Store.new 4000 4010).add_remote ⟨1, 10, [], false⟩ 500).disable_remote
        1).send_to_remote 1 StreamMessage.Close).1 =
      Except.error (ClientStreamError.StreamDisabled 1) :=
  ⟨(C3_send_to_remote_unknown_or_disabled (Store.new 4000 4010) 9 StreamMessage.Close).1 rfl,
    (C3_send_to_remote_unknown_or_disabled
      ((Store.new 4000 4010).add_remote ⟨1, 10, [], false⟩ 500) 1
      StreamMessage.Close).2.2 ⟨1, 10, [], false⟩ rfl⟩

/-- An allocation that returns a port drew it from the free set. -/
theorem allocate_port_ok_mem (a : PortAllocator) (rng p : Nat)
    (h : (a.allocate_port rng).1 = Except.ok p) : p ∈ a.free := by
  by_cases h0 : a.free.length = 0
  · rw [PortAllocator.allocate_port, dif_pos h0] at h
    simp at h
  · rw [PortAllocator.allocate_port, dif_neg h0] at h
    simp only [] at h
    have hp := Except.ok.inj h
    rw [← hp]
    exact a.free.get_mem _ _

/-- Allocation never returns a port to the free set. -/
theorem allocate_port_preserves_not_mem (a : PortAllocator) (rng p : Nat)
    (h : p ∉ a.free) : p ∉ (a.allocate_port rng).2.free := by
  by_cases h0 : a.free.length = 0
  · rw [PortAllocator.allocate_port, dif_pos h0]
    exact h
  · rw [PortAllocator.allocate_port, dif_neg h0]
    intro hmem
    exact h (List.mem_of_mem_erase hmem)

/-- After a successful allocation the returned port has left the free set. -/
theorem allocate_port_ok_not_mem (a : PortAllocator) (rng p : Nat) (hnd : a.free.Nodup)
    (h : (a.allocate_port rng).1 = Except.ok p) : p ∉ (a.allocate_port rng).2.free := by
  by_cases h0 : a.free.length = 0
  · rw [PortAllocator.allocate_port, dif_pos h0] at h
    simp at h
  · rw [PortAllocator.allocate_port, dif_neg h0] at h ⊢
    simp only [] at h ⊢
    have hp := Except.ok.inj h
    rw [← hp]
    exact hnd.not_mem_erase

/-- A port absent from the free set is never returned by any later allocation run. -/
theorem allocRun_ne (p : Nat) : ∀ (rngs : List Nat) (a : PortAllocator), p ∉ a.free →
    ∀ r ∈ (allocRun a rngs).1, r ≠ Except.ok p := by
  intro rngs
  induction rngs with
  | nil =>
      intro a hp r hr
      simp [allocRun] at hr
  | cons rng rngs ih =>
      intro a hp r hr
      rw [allocRun] at hr
      rcases List.mem_cons.mp hr with hr1 | hr2
      · subst hr1
        intro hok
        exact hp (allocate_port_ok_mem a rng p hok)
      · exact ih (a.allocate_port rng).2 (allocate_port_preserves_not_mem a rng p hp) r hr2

/-- C4: a port returned by allocate is not returned by any subsequent allocate in the same
generation until it is released; releasing a port that is not currently allocated returns
the NotAllocated error; and releasing the same port a second time is an error. -/
theorem C4_port_allocator (a : PortAllocator) (rng p : Nat) (rngs : List Nat)
    (hnd : a.free.Nodup) (hok : (a.allocate_port rng).1 = Except.ok p) :
    (∀ r ∈ (allocRun (a.allocate_port rng).2 rngs).1, r ≠ Except.ok p) ∧
    (∀ (b : PortAllocator) (q : Nat), ¬ b.isAllocated q →
      (b.release_port q).1 = Except.error PortAllocatorError.NotAllocated) ∧
    (∀ (b : PortAllocator) (q : Nat),
      ((b.release_port q).2.release_port q).1 =
        Except.error PortAllocatorError.NotAllocated) := by
  refine ⟨?_, ?_, ?_⟩
  · exact allocRun_ne p rngs _ (allocate_port_ok_not_mem a rng p hnd hok)
  · intro b q hq
    rw [PortAllocator.release_port, if_neg hq]
  · intro b q
    by_cases hq : b.isAllocated q
    · have hst : (b.release_port q).2 = { b with free := q :: b.free } := by
        rw [PortAllocator.release_port, if_pos hq]
      have hq2 : ¬ ({ b with free := q :: b.free } : PortAllocator).isAllocated q := by
        simp [PortAllocator.isAllocated]
      rw [hst, PortAllocator.release_port, if_neg hq2]
    · have hst : (b.release_port q).2 = b := by
        rw [PortAllocator.release_port, if_neg hq]
      rw [hst, PortAllocator.release_port, if_neg hq]

/-- Witness for C4 over the concrete range [4000, 4003): rng draw 1 allocates 4001; the
follow-up allocation returns 4000, not 4001, and releasing an unallocated port errors. -/
theorem C4_port_allocator_witness :
    Except.ok 4000 ≠ (Except.ok 4001 : Except PortAllocatorError Nat) ∧
    ((PortAllocator.new 4000 4003).release_port 4005).1 =
      Except.error PortAllocatorError.NotAllocated :=
  ⟨(C4_port_allocator (PortAllocator.new 4000 4003) 1 4001 [0] (by decide)
      (by decide)).1 (Except.ok 4000) (by decide),
    (C4_port_allocator (PortAllocator.new 4000 4003) 1 4001 [0] (by decide)
      (by decide)).2.1 (PortAllocator.new 4000 4003) 4005 (by decide)⟩

/-- A non-disabled stream used by the C2 scenario. -/
def c2_remote : RemoteStream :=
  ⟨1, 10, [], false⟩

/-- A store that registered one remote stream at peer address 500 and then disabled it. -/
def c2_store : Store :=
  ((Store.new 4000 4010).add_remote c2_remote 500).disable_remote 1

/-- C2 counterexample: after cleanup, the disabled stream is gone from the streams map but
its peer_addr entry still maps address 500 to StreamId 1 — the peer_addr index entry is not
removed, contradicting the claim that every index entry of a disabled stream is gone. -/
theorem C2_counterexample_stale_addr :
    mapLookup (Store.cleanup c2_store).streams 1 = none ∧
    mapLookup (Store.cleanup c2_store).addrs_map 500 = some 1 :=
  ⟨rfl, rfl⟩

/-- C2 (amended): after cleanup every entry remaining in the streams and clients maps is
non-disabled (all disabled entries were dropped from those two maps), while the
peer_addr → StreamId and public_port → ClientId side indexes are left untouched, so they
may retain stale entries. -/
theorem C2_sweep_amended (s : Store) :
    (∀ (sid : StreamId) (st : RemoteStream),
      mapLookup (Store.cleanup s).streams sid = some st → st.disabled = false) ∧
    (∀ (cid : ClientId) (c : Client),
      mapLookup (Store.cleanup s).clients cid = some c → c.disabled = false) ∧
    (Store.cleanup s).addrs_map = s.addrs_map ∧
    (Store.cleanup s).port_map = s.port_map := by
  refine ⟨?_, ?_, rfl, rfl⟩
  · intro sid st h
    have hb := mapLookup_mapRetain_some s.streams (fun v => !v.disabled) sid st h
    simpa using hb
  · intro cid c h
    have hb := mapLookup_mapRetain_some s.clients (fun v => !v.disabled) cid c h
    simpa using hb

/-- A live stream surviving cleanup, used to witness the amended C2. -/
def c2_live_remote : RemoteStream :=
  ⟨2, 11, [], false⟩

/-- The store holding only the live stream of the C2 witness. -/
def c2_live_store : Store :=
  (Store.new 4000 4010).add_remote c2_live_remote 600

/-- Witness for the amended C2 at a concrete store. -/
theorem C2_sweep_amended_witness : c2_live_remote.disabled = false :=
  (C2_sweep_amended c2_live_store).1 2 c2_live_remote rfl

/-- A client on public port 4000, used by the C6 scenario. -/
def c6_client : Client :=
  ⟨7, 4000, [], false⟩

/-- A store that registered the client and then disabled it. -/
def c6_store : Store :=
  ((Store.new 4000 4010).add_client c6_client).disable_client 7

/-- C6 counterexample: after cleanup removed the disabled client from the clients map, the
public_port index still maps port 4000 to ClientId 7 — contradicting the claim that after a
sweep removes a client no public_port entry maps to its ClientId. -/
theorem C6_counterexample_stale_port :
    mapLookup (Store.cleanup c6_store).clients 7 = none ∧
    mapLookup (Store.cleanup c6_store).port_map 4000 = some 7 :=
  ⟨rfl, rfl⟩

/-- C6 (amended): add_client records the new client's port in the public_port index, the
index binds each port to at most one ClientId, and cleanup leaves the public_port index
unchanged — a removed client's port entry persists until overwritten by a later
add_client. -/
theorem C6_port_index_amended (s : Store) (client : Client) :
    mapLookup (Store.add_client s client).port_map client.remote_port =
      some client.client_id ∧
    (∀ (port : Nat) (cid1 cid2 : ClientId),
      mapLookup (Store.add_client s client).port_map port = some cid1 →
      mapLookup (Store.add_client s client).port_map port = some cid2 → cid1 = cid2) ∧
    (Store.cleanup s).port_map = s.port_map := by
  refine ⟨?_, ?_, rfl⟩
  · exact mapLookup_mapInsert_self s.port_map client.remote_port client.client_id
  · intro port cid1 cid2 h1 h2
    rw [h1] at h2
    exact Option.some.inj h2

/-- Witness for the amended C6 at a concrete store and client. -/
theorem C6_port_index_amended_witness :
    mapLookup ((Store.new 4000 4010).add_client c6_client).port_map 4000 = some 7 ∧
    (7 : ClientId) = 7 :=
  ⟨(C6_port_index_amended (Store.new 4000 4010) c6_client).1,
    (C6_port_index_amended (Store.new 4000 4010) c6_client).2.1 4000 7 7 rfl rfl⟩

/-- C7: disable is idempotent for streams and clients — any number of calls after the first
leaves the registry identical to calling it once — and repeated remove of the same client
is a no-op on both the clients index and the hosts index. -/
theorem C7_disable_idempotent_remove_noop :
    (∀ (s : Store) (stream_id : StreamId),
      (s.disable_remote stream_id).disable_remote stream_id = s.disable_remote stream_id) ∧
    (∀ (s : Store) (client_id : ClientId),
      (s.disable_client client_id).disable_client client_id = s.disable_client client_id) ∧
    (∀ (c : Connections) (client : ConnectedClient),
      (c.remove client).remove client = c.remove client) := by
  refine ⟨?_, ?_, ?_⟩
  · intro s sid
    rw [Store.disable_remote, Store.disable_remote]
    rw [mapModify_mapModify s.streams sid RemoteStream.disable (fun r => rfl)]
  · intro s cid
    rw [Store.disable_client, Store.disable_client]
    rw [mapModify_mapModify s.clients cid Client.disable (fun c => rfl)]
  · intro c client
    rw [Connections.remove, Connections.remove]
    rw [mapRemove_mapRemove c.clients client.id, mapRemove_mapRemove c.hosts client.host]

/-- C8: find_stream_id_by_addr returns a stream id exactly when the address maps to a
registered stream whose disabled flag is false; in particular it never returns the id of a
disabled stream. -/
theorem C8_find_by_addr_excludes_disabled (s : Store) (addr : SocketAddr) (sid : StreamId) :
    (s.find_stream_id_by_addr addr).1 = some sid ↔
      ∃ (sid0 : StreamId) (st : RemoteStream),
        mapLookup s.addrs_map addr = some sid0 ∧
        mapLookup s.streams sid0 = some st ∧
        st.disabled = false ∧ st.stream_id = sid := by
  constructor
  · intro h
    rw [Store.find_stream_id_by_addr] at h
    rcases ha : mapLookup s.addrs_map addr with _ | sid0
    · rw [ha] at h
      simp at h
    · rw [ha] at h
      rcases hs : mapLookup s.streams sid0 with _ | st
      · simp [hs] at h
      · by_cases hd : st.disabled = true
        · simp [hs, hd] at h
        · have hd' : st.disabled = false := by simpa using hd
          simp [hs, hd'] at h
          exact ⟨sid0, st, rfl, hs, hd', h⟩
  · rintro ⟨sid0, st, ha, hs, hd, hst⟩
    rw [Store.find_stream_id_by_addr, ha]
    simp [hs, hd, hst]

/-- A live stream at peer address 700, used to witness C8. -/
def c8_remote : RemoteStream :=
  ⟨3, 12, [], false⟩

/-- The store holding the C8 witness stream. -/
def c8_store : Store :=
  (Store.new 4000 4010).add_remote c8_remote 700

/-- Witness for C8 at a concrete store: the lookup finds the live stream. -/
theorem C8_find_by_addr_witness : (c8_store.find_stream_id_by_addr 700).1 = some 3 :=
  (C8_find_by_addr_excludes_disabled c8_store 700 3).mpr ⟨3, c8_remote, rfl, rfl, rfl, rfl⟩

/-- C9: when the address index holds a stale entry whose stream id is no longer in the
streams map, the lookup returns None rather than the dangling id, and the store — including
the stale addrs_map entry — is left in place. -/
theorem C9_stale_addr_entry_tolerated (s : Store) (addr : SocketAddr) (sid : StreamId)
    (h1 : mapLookup s.addrs_map addr = some sid)
    (h2 : mapLookup s.streams sid = none) :
    s.find_stream_id_by_addr addr = (none, s) := by
  rw [Store.find_stream_id_by_addr, h1]
  simp [h2]

/-- The stream whose removal leaves the C9 stale entry behind. -/
def c9_remote : RemoteStream :=
  ⟨4, 13, [], false⟩

/-- A store whose addrs_map entry for address 800 dangles: the stream was disabled and then
swept, but cleanup left the address entry. -/
def c9_store : Store :=
  Store.cleanup (((Store.new 4000 4010).add_remote c9_remote 800).disable_remote 4)

/-- Witness for C9 at the concrete post-cleanup store. -/
theorem C9_stale_addr_entry_witness :
    c9_store.find_stream_id_by_addr 800 = (none, c9_store) :=
  C9_stale_addr_entry_tolerated c9_store 800 4 rfl rfl

/-- The structopt default of the --payload CLI option (src/ownserver/src/main.rs). -/
def payload_default : String :=
  "tcp"

/-- The payload-kind selection in main (src/ownserver/src/main.rs): "udp" selects UDP and
every other string selects Other. -/
def parse_payload (s : String) : Payload :=
  if s = "udp" then Payload.UDP else Payload.Other

/-- C10: every --payload value other than "udp" makes the client behave as if "tcp" had
been given, and the default when the option is absent is "tcp". -/
theorem C10_payload_fallback :
    (∀ s : String, s ≠ "udp" → parse_payload s = parse_payload "tcp") ∧
    payload_default = "tcp" ∧ parse_payload "udp" = Payload.UDP := by
  refine ⟨?_, rfl, rfl⟩
  intro s hs
  rw [parse_payload, if_neg hs]
  rfl

/-- Witness for C10 at a concrete unknown payload value. -/
theorem C10_payload_fallback_witness : parse_payload "quic" = parse_payload "tcp" :=
  C10_payload_fallback.1 "quic" (by decide)
